import Mathlib

/-!
Shallow embedding of the libral provider core (src/lib/src/provider.cc,
src/lib/src/json_provider.cc, src/lib/inc/libral/result.hpp).

C++ `result<R>` is embedded as `Except error R`; C++ exceptions
(contract violations such as `std::invalid_argument`, and the exceptions
thrown by `leatherman::json_container::JsonContainer` accessors) are
embedded as a separate `Except String` layer, kept distinct from the
`result` discipline exactly as in the source.
-/

deriving instance DecidableEq for Except

namespace libral

/-- `error` from result.hpp: the basic error carrying a detail string. -/
structure error where
  detail : String
deriving DecidableEq

/-- `result<R>` from result.hpp: either an error or the wanted value. -/
abbrev result (R : Type) := Except error R

/-- The exception channel: C++ `throw` (contract violations and
JsonContainer accessor exceptions), which is outside the `result`
discipline. `.error s` models a thrown exception with message `s`. -/
abbrev thrown (α : Type) := Except String α

/-- `value` (libral's attribute value): tagged union over
absent / string / boolean / integer / string-array. -/
inductive value where
  | absent : value
  | str (s : String) : value
  | bool (b : Bool) : value
  | int (n : Int) : value
  | arr (xs : List String) : value
deriving DecidableEq

/-- `value::is_present()`: every variant except `absent` is present. -/
def value.is_present : value → Bool
  | .absent => false
  | _ => true

/-- `value::as<std::string>()`: the string payload when the variant is a
string, otherwise none (the C++ returns a null pointer). -/
def value.as_string : value → Option String
  | .str s => some s
  | _ => none

/-- `attr_map` (a `std::map<std::string, value>`), embedded as an
association list; the C++ map keeps keys unique. -/
abbrev attr_map := List (String × value)

/-- `std::map::find` followed by `->second`: the value stored at `key`,
if any. -/
def attr_map.find? (m : attr_map) (key : String) : Option value :=
  (List.find? (fun p => p.1 == key) m).map (·.2)

/-- `attr_map::operator[] const` (provider.cc:13-20): total read; a
missing key yields `boost::none`, i.e. the absent value. -/
def attr_map.get (m : attr_map) (key : String) : value :=
  match attr_map.find? m key with
  | none => value.absent
  | some v => v

/-- `std::map::operator[]` assignment: insert or overwrite at `key`
(the C++ map keeps keys unique, so overwriting the first occurrence is
the map's semantics). -/
def attr_map.set : attr_map → String → value → attr_map
  | [], key, v => [(key, v)]
  | p :: m, key, v =>
    if p.1 == key then (key, v) :: m else p :: attr_map.set m key v

/-- `attr_map::lookup<T>(key, deflt)` (provider.cc:26-36): the typed
payload if the stored value is of type T, else `deflt`. The template
parameter T is embedded as the payload type together with its
`value::as<T>` extractor. -/
def attr_map.lookup {T : Type} (m : attr_map) (asT : value → Option T)
    (key : String) (deflt : T) : T :=
  match attr_map.find? m key with
  | none => deflt
  | some v =>
    match asT v with
    | some p => p
    | none => deflt

/-- `is_name` (provider.cc:51-54): hardcodes the namevar. -/
def is_name (key : String) : Bool :=
  key == "name"

/-- `change` (provider.hpp): an attribute's transition record with
fields `attr`, `is`, `was`, in the constructor's order
`change(attr, is, was)`. -/
structure change where
  attr : String
  is : value
  was : value
deriving DecidableEq

/-- `changes` is a sequence of `change` (a `std::vector`). -/
abbrev changes := List change

/-- `changes::add` (provider.cc:60-63): `push_back(change(attr, is, was))`. -/
def changes.add (chgs : changes) (attr : String) (is was : value) : changes :=
  chgs ++ [⟨attr, is, was⟩]

/-- `changes::exists` (provider.cc:65-71): membership test by attribute
name. -/
def changes.exists (chgs : changes) (attr : String) : Bool :=
  chgs.any (fun ch => ch.attr == attr)

/-- `resource`: identity name plus the attribute map `_attrs` of all
other attributes. -/
structure resource where
  name : String
  attrs : attr_map
deriving DecidableEq

/-- The contract-violation message of `resource::operator[]`. -/
def name_access_msg : String :=
  "The name can not be accessed with operator[]"

/-- `resource::operator[] const` (provider.cc:85-92): read a non-identity
attribute; throws `std::invalid_argument` for the identity key. -/
def resource.read (r : resource) (key : String) : thrown value :=
  if is_name key then
    .error name_access_msg
  else
    .ok (attr_map.get r.attrs key)

/-- `resource::operator[]` non-const (provider.cc:94-100): write a
non-identity attribute; throws `std::invalid_argument` for the identity
key. Returns the updated resource (the C++ mutates `_attrs`). -/
def resource.write (r : resource) (key : String) (v : value) : thrown resource :=
  if is_name key then
    .error name_access_msg
  else
    .ok { r with attrs := attr_map.set r.attrs key v }

/-- `resource::check` (provider.cc:115-123): for each listed property,
if the desired value is present and differs from the current one, append
`chgs.add(prop, should[prop], is[prop])`. Note the current value is read
through `resource::operator[]`, which throws on the identity key; the
`&&` short-circuit evaluates `is[prop]` only when `should[prop]` is
present. -/
def resource.check (r : resource) (chgs : changes) (should : attr_map) :
    List String → thrown changes
  | [] => .ok chgs
  | prop :: rest =>
    if (attr_map.get should prop).is_present then
      match resource.read r prop with
      | .error e => .error e
      | .ok cur =>
        if cur ≠ attr_map.get should prop then
          resource.check r (changes.add chgs prop (attr_map.get should prop) cur) should rest
        else
          resource.check r chgs should rest
    else
      resource.check r chgs should rest

/-- A JSON document (`leatherman::json_container::JsonContainer`),
reduced to the shapes the protocol exchanges. Objects keep member
order. -/
inductive JsonV where
  | str (s : String) : JsonV
  | bool (b : Bool) : JsonV
  | num (n : Int) : JsonV
  | obj (fields : List (String × JsonV)) : JsonV
  | arr (elems : List JsonV) : JsonV

/-- Member lookup inside a JSON object; `none` on a missing key or a
non-object. -/
def JsonV.lookup : JsonV → String → Option JsonV
  | .obj fields, key => (List.find? (fun p => p.1 == key) fields).map (·.2)
  | _, _ => none

/-- Two-step path lookup (`{ k1, k2 }` paths of JsonContainer). -/
def JsonV.lookup2 (j : JsonV) (k1 k2 : String) : Option JsonV :=
  match j.lookup k1 with
  | none => none
  | some j1 => j1.lookup k2

/-- `JsonContainer::includes(key)`: the key is a member of the object. -/
def JsonV.includes (j : JsonV) (key : String) : Bool :=
  (j.lookup key).isSome

/-- `JsonContainer::includes({k1, k2})`. -/
def JsonV.includes2 (j : JsonV) (k1 k2 : String) : Bool :=
  (j.lookup2 k1 k2).isSome

/-- `JsonContainer::keys()`: member names of an object, in member order
(empty for a non-object value). -/
def JsonV.keys : JsonV → List String
  | .obj fields => fields.map (·.1)
  | _ => []

/-- `JsonContainer::get<std::string>(key)`: throws unless the member is
present and holds a string. -/
def JsonV.getString (j : JsonV) (key : String) : thrown String :=
  match j.lookup key with
  | some (.str s) => .ok s
  | some _ => .error ("get<string>: value at '" ++ key ++ "' is not a string")
  | none => .error ("get<string>: no such key '" ++ key ++ "'")

/-- `JsonContainer::get<std::string>({k1, k2})`. -/
def JsonV.getString2 (j : JsonV) (k1 k2 : String) : thrown String :=
  match j.lookup2 k1 k2 with
  | some (.str s) => .ok s
  | some _ => .error ("get<string>: value at path is not a string")
  | none => .error ("get<string>: no such path")

/-- `JsonContainer::get<JsonContainer>(key)`: throws on a missing key;
otherwise hands back the member document. -/
def JsonV.getContainer (j : JsonV) (key : String) : thrown JsonV :=
  match j.lookup key with
  | some j1 => .ok j1
  | none => .error ("get<JsonContainer>: no such key '" ++ key ++ "'")

/-- `getWithDefault<std::string>(path, deflt)`: the string at the path
when present, otherwise the default. -/
def JsonV.getWithDefault2 (j : JsonV) (k1 k2 : String) (deflt : String) : String :=
  match j.lookup2 k1 k2 with
  | some (.str s) => s
  | _ => deflt

/-- The result of `leatherman::execution::execute`: success flag (exit
code zero), exit code, trimmed stdout (`output`) and stderr (`error`). -/
structure exec_result where
  success : Bool
  exit_code : Int
  output : String
  error : String

/-- `json_provider::run_action` (json_provider.cc:173-207), given the
outcome of the external invocation and the JSON parse used on stdout
(the C++ `JsonContainer(res.output)` constructor; its own throw-on-bad-
JSON behavior is outside the claims, so the parse is a parameter). -/
def run_action (action : String) (res : exec_result)
    (parse_json : String → JsonV) : result JsonV :=
  if !res.success then
    if res.output = "" then
      if res.error = "" then
        .error ⟨"action '" ++ action ++ "' exited with status " ++
          toString res.exit_code⟩
      else
        .error ⟨"action '" ++ action ++ "' exited with status " ++
          toString res.exit_code ++ ". stderr was '" ++ res.error ++ "'"⟩
    else
      if res.error = "" then
        .error ⟨"action '" ++ action ++ "' exited with status " ++
          toString res.exit_code ++ ". Output was '" ++ res.output ++ "'"⟩
      else
        .error ⟨"action '" ++ action ++ "' exited with status " ++
          toString res.exit_code ++ ". Output was '" ++ res.output ++
          "'. stderr was '" ++ res.error ++ "'"⟩
  else if res.error ≠ "" then
    .error ⟨"action '" ++ action ++ "' produced stderr '" ++ res.error ++ "'"⟩
  else
    .ok (parse_json res.output)

/-- `json_provider::contains_error` (json_provider.cc:209-218): the
document carries an error envelope iff it includes the key `error`. -/
def contains_error (j : JsonV) : Bool :=
  j.includes "error"

/-- The `message` extracted by `contains_error` via `getWithDefault`. -/
def error_message (j : JsonV) : String :=
  j.getWithDefault2 "error" "message" ""

/-- The `kind` extracted by `contains_error`, defaulting to "failed". -/
def error_kind (j : JsonV) : String :=
  j.getWithDefault2 "error" "kind" "failed"

/-- `json_provider::resource_from_json` (json_provider.cc:220-237): a
missing `name` member is the conversion Error; otherwise every other
top-level member becomes a string attribute, written through
`resource::operator[]` (the `name` key is skipped by `continue`, so the
accessor's identity-key throw is unreachable). `get<std::string>` throws
on non-string members, hence the outer `thrown` layer. -/
def resource_from_json (j : JsonV) : thrown (result resource) :=
  if !(j.includes "name") then
    .ok (.error ⟨"resource does not have a name"⟩)
  else
    match j.getString "name" with
    | .error ex => .error ex
    | .ok name =>
      (List.foldlM
        (fun (r : resource) k =>
          if k == "name" then
            pure r
          else
            match j.getString k with
            | .error ex => .error ex
            | .ok s =>
              match resource.write r k (value.str s) with
              | .error ex => .error ex
              | .ok r2 => pure r2)
        ⟨name, []⟩ j.keys : thrown resource).map Except.ok

/-- The `changes` reading loop of `json_resource::update`
(json_provider.cc:53-66): for each key of the `changes` object, a
missing `is` or `was` member is a malformed-change Error (checked in
that order); otherwise both strings are read (`get<std::string>` throws
on a non-string) and the change appended. -/
def read_changes (jchgs : JsonV) : List String → thrown (result changes)
  | [] => .ok (.ok [])
  | k :: rest =>
    if !(jchgs.includes2 k "is") then
      .ok (.error ⟨"malformed change: entry for " ++ k ++
        " does not contain 'is'"⟩)
    else if !(jchgs.includes2 k "was") then
      .ok (.error ⟨"malformed change: entry for " ++ k ++
        " does not contain 'was'"⟩)
    else
      match jchgs.getString2 k "is" with
      | .error ex => .error ex
      | .ok is0 =>
        match jchgs.getString2 k "was" with
        | .error ex => .error ex
        | .ok was0 =>
          match read_changes jchgs rest with
          | .error ex => .error ex
          | .ok (.error e) => .ok (.error e)
          | .ok (.ok cs) => .ok (.ok (⟨k, value.str is0, value.str was0⟩ :: cs))

/-- The post-update write-back loop of `json_resource::update`
(json_provider.cc:67-70): every attribute of `should` except the
identity key `name` is written into the attribute map. -/
def write_back (should : attr_map) (m : attr_map) : attr_map :=
  should.foldl (fun acc s =>
    if s.1 ≠ "name" then attr_map.set acc s.1 s.2 else acc) m

/-- `json_provider::json_resource::update` (json_provider.cc:22-72),
given the resource's state, the desired map `should`, and the outcome of
`run_action("update", ...)`. Returns the `result<changes>` together with
the resource's state after the call; all `result` error paths return
before the write-back loop runs. -/
def json_resource.update (r : resource) (should : attr_map)
    (out : result JsonV) : thrown (result changes × resource) :=
  match out with
  | .error e => .ok (.error e, r)
  | .ok doc =>
    if contains_error doc then
      .ok (.error ⟨"update failed: " ++ error_message doc⟩, r)
    else if !(doc.includes "changes") then
      .ok (.ok [], r)
    else
      match doc.getContainer "changes" with
      | .error ex => .error ex
      | .ok jchgs =>
        match read_changes jchgs jchgs.keys with
        | .error ex => .error ex
        | .ok (.error e) => .ok (.error e, r)
        | .ok (.ok cs) =>
          .ok (.ok cs, { r with attrs := write_back should r.attrs })

/-- The enumeration loop of `json_provider::instances`
(json_provider.cc:162-169): conversions are pushed onto the accumulated
vector; the first conversion failure is logged and the vector
accumulated so far is returned. -/
def instances_loop : List resource → List JsonV → thrown (List resource)
  | acc, [] => .ok acc
  | acc, j :: rest =>
    match resource_from_json j with
    | .error ex => .error ex
    | .ok (.error _) => .ok acc
    | .ok (.ok r) => instances_loop (acc ++ [r]) rest

/-- `json_provider::instances` (json_provider.cc:139-171), given the
outcome of `run_action("list", ...)`: a failed invocation, an error
envelope, or a missing `resources` key are logged and yield the empty
vector; otherwise the entries are converted in order. A `resources`
value that is not an array throws in the C++ `get`, hence the `thrown`
layer. -/
def json_provider.instances (out : result JsonV) : thrown (List resource) :=
  match out with
  | .error _ => .ok []
  | .ok doc =>
    if contains_error doc then .ok []
    else if !(doc.includes "resources") then .ok []
    else
      match doc.lookup "resources" with
      | some (.arr rs) => instances_loop [] rs
      | some _ => .error "get<vector<JsonContainer>>: value is not an array"
      | none => .error "get<vector<JsonContainer>>: no such key"

/-- `json_provider::find` (json_provider.cc:103-137), given the
requested name and the outcome of `run_action("find", ...)`: a failed
invocation, an error envelope (any kind, including the expected
"unknown"), a failed resource conversion, or a name mismatch all yield
`boost::none`; only a converted resource with a matching name is
returned. A missing `resource` key throws in the C++ `get`. -/
def json_provider.find (name : String) (out : result JsonV) :
    thrown (Option resource) :=
  match out with
  | .error _ => .ok none
  | .ok doc =>
    if contains_error doc then .ok none
    else
      match doc.getContainer "resource" with
      | .error ex => .error ex
      | .ok json_rsrc =>
        match resource_from_json json_rsrc with
        | .error ex => .error ex
        | .ok (.error _) => .ok none
        | .ok (.ok rsrc) =>
          if rsrc.name ≠ name then .ok none else .ok (some rsrc)

/-- An attribute's spec entry (`prov::spec::attr` result): its
type-directed reader of wire text. Declared in provider.hpp / spec.cc
(outside the source core); embedded abstractly since `provider::parse`
only forwards to it. -/
structure attr_spec where
  read_string : String → result value

/-- A provider's parsed spec, abstractly: attribute name to entry. -/
structure prov_spec where
  attr : String → Option attr_spec

/-- The state of `provider`: `_spec`, none until `prepare()` stores a
successfully described spec. -/
structure provider_state where
  spec : Option prov_spec

/-- `provider::parse` (provider.cc:137-147): error when `_spec` is not
initialized; error when the attribute is unknown; otherwise delegate to
the entry's `read_string`. -/
def provider.parse (p : provider_state) (name v : String) : result value :=
  match p.spec with
  | none => .error ⟨"internal error: spec was not initialized"⟩
  | some s =>
    match s.attr name with
    | none => .error ⟨"there is no attribute '" ++ name ++ "'"⟩
    | some a => a.read_string v

/-- `provider::prepare` (provider.cc:154-161), given the outcome of
`describe()`: on failure propagate the error leaving `_spec` untouched;
on success store the spec. -/
def provider.prepare (p : provider_state) (describe_res : result prov_spec) :
    result Bool × provider_state :=
  match describe_res with
  | .error e => (.error e, p)
  | .ok s => (.ok true, { spec := some s })

/-- `needle` occurs as a contiguous substring of `hay`. -/
def str_contains (hay needle : String) : Prop :=
  ∃ a b, hay = a ++ needle ++ b

/-- An entry of a `changes` object whose `is` and `was` members are both
present strings: the protocol's well-formed shape, under which
`get<std::string>` cannot throw. -/
def entry_wf (jc : JsonV) (k : String) : Bool :=
  match jc.lookup2 k "is", jc.lookup2 k "was" with
  | some (.str _), some (.str _) => true
  | _, _ => false

/-- Conversion of a list of JSON entries, defined only when every entry
converts successfully (used to describe the prefix before a failing
entry). -/
def convert_all : List JsonV → Option (List resource)
  | [] => some []
  | j :: rest =>
    match resource_from_json j with
    | .ok (.ok r) => (convert_all rest).map (r :: ·)
    | _ => none

theorem find?_set_self (m : attr_map) (k : String) (v : value) :
    attr_map.find? (attr_map.set m k v) k = some v := by
  induction m with
  | nil => simp [attr_map.set, attr_map.find?]
  | cons p m ih =>
    by_cases hp : p.1 == k
    · simp [attr_map.set, attr_map.find?, hp]
    · simp only [attr_map.set, hp, if_false]
      simpa [attr_map.find?, hp] using ih

theorem find?_set_ne (m : attr_map) (k k' : String) (v : value)
    (h : k' ≠ k) :
    attr_map.find? (attr_map.set m k v) k' = attr_map.find? m k' := by
  have hkk : (k == k') = false := by
    simp
    exact Ne.symm h
  induction m with
  | nil => simp [attr_map.set, attr_map.find?, hkk]
  | cons p m ih =>
    by_cases hp : p.1 == k
    · have hpk : p.1 = k := by simpa using hp
      simp [attr_map.set, attr_map.find?, hp, hpk, hkk]
    · by_cases hp' : p.1 == k'
      · simp [attr_map.set, attr_map.find?, hp, hp']
      · simp only [attr_map.set, hp, if_false]
        simpa [attr_map.find?, hp'] using ih

theorem write_back_cons (s : String × value) (rest : attr_map)
    (m : attr_map) :
    write_back (s :: rest) m
      = write_back rest (if s.1 ≠ "name" then attr_map.set m s.1 s.2 else m) :=
  rfl

theorem write_back_find?_name (should : attr_map) (m : attr_map) :
    attr_map.find? (write_back should m) "name" = attr_map.find? m "name" := by
  induction should generalizing m with
  | nil => rfl
  | cons s rest ih =>
    rw [write_back_cons]
    by_cases hs : s.1 = "name"
    · rw [if_neg (by simp [hs])]
      exact ih m
    · rw [if_pos hs, ih (attr_map.set m s.1 s.2),
        find?_set_ne _ _ _ _ (Ne.symm hs)]

theorem write_back_find?_not_key (should : attr_map) (m : attr_map)
    (k : String) (h : k ∉ should.map Prod.fst) :
    attr_map.find? (write_back should m) k = attr_map.find? m k := by
  induction should generalizing m with
  | nil => rfl
  | cons s rest ih =>
    have hk : k ≠ s.1 := by
      intro hh
      exact h (by simp [hh])
    have hrest : k ∉ rest.map Prod.fst := by
      intro hh
      exact h (by simp [hh])
    rw [write_back_cons]
    by_cases hs : s.1 = "name"
    · rw [if_neg (by simp [hs])]
      exact ih m hrest
    · rw [if_pos hs, ih (attr_map.set m s.1 s.2) hrest,
        find?_set_ne _ _ _ _ hk]

theorem write_back_find?_mem (should : attr_map) (m : attr_map)
    (k : String) (v : value)
    (hnd : (should.map Prod.fst).Nodup)
    (hmem : (k, v) ∈ should) (hk : k ≠ "name") :
    attr_map.find? (write_back should m) k = some v := by
  induction should generalizing m with
  | nil => simp at hmem
  | cons s rest ih =>
    rw [write_back_cons]
    rcases List.mem_cons.mp hmem with heq | hrest
    · subst heq
      have hnotin : k ∉ rest.map Prod.fst := by
        simpa using (List.nodup_cons.mp hnd).1
      rw [if_pos hk, write_back_find?_not_key rest _ k hnotin, find?_set_self]
    · have hnd2 := (List.nodup_cons.mp hnd).2
      by_cases hs : s.1 = "name"
      · rw [if_neg (by simp [hs])]
        exact ih m hnd2 hrest
      · rw [if_pos hs]
        exact ih (attr_map.set m s.1 s.2) hnd2 hrest

theorem entry_wf_elim (jc : JsonV) (k : String) (h : entry_wf jc k = true) :
    ∃ s1 s2, jc.lookup2 k "is" = some (.str s1) ∧
      jc.lookup2 k "was" = some (.str s2) := by
  unfold entry_wf at h
  split at h
  · next s1 s2 heq1 heq2 => exact ⟨s1, s2, heq1, heq2⟩
  · simp at h

/-- The first presence-malformed entry of the `changes` object turns
`read_changes` into a malformed-change `result` error naming it,
provided the entries before it are well-formed. -/
theorem read_changes_malformed (jc : JsonV) (k : String)
    (post : List String)
    (hmal : jc.includes2 k "is" = false ∨ jc.includes2 k "was" = false) :
    ∀ pre : List String, (∀ k2 ∈ pre, entry_wf jc k2 = true) →
    ∃ e, read_changes jc (pre ++ k :: post) = .ok (.error e) ∧
      str_contains e.detail k := by
  intro pre
  induction pre with
  | nil =>
    intro _
    rcases hmal with h | h
    · refine ⟨⟨"malformed change: entry for " ++ k ++
        " does not contain 'is'"⟩, ?_, ?_⟩
      · simp [read_changes, h]
      · exact ⟨"malformed change: entry for ", " does not contain 'is'",
          by simp [String.append_assoc]⟩
    · by_cases h1 : jc.includes2 k "is"
      · refine ⟨⟨"malformed change: entry for " ++ k ++
          " does not contain 'was'"⟩, ?_, ?_⟩
        · simp [read_changes, h1, h]
        · exact ⟨"malformed change: entry for ", " does not contain 'was'",
            by simp [String.append_assoc]⟩
      · refine ⟨⟨"malformed change: entry for " ++ k ++
          " does not contain 'is'"⟩, ?_, ?_⟩
        · simp [read_changes, h1]
        · exact ⟨"malformed change: entry for ", " does not contain 'is'",
            by simp [String.append_assoc]⟩
  | cons k2 pre2 ih =>
    intro hwf
    obtain ⟨s1, s2, hs1, hs2⟩ := entry_wf_elim jc k2 (hwf k2 (by simp))
    obtain ⟨e, he, hc⟩ := ih (fun k3 h3 => hwf k3 (by simp [h3]))
    refine ⟨e, ?_, hc⟩
    have hi1 : jc.includes2 k2 "is" = true := by
      simp [JsonV.includes2, hs1]
    have hi2 : jc.includes2 k2 "was" = true := by
      simp [JsonV.includes2, hs2]
    simp [read_changes, hi1, hi2, JsonV.getString2, hs1, hs2, he]

/-- The enumeration loop keeps the resources converted before the first
failing entry and stops there. -/
theorem instances_loop_stops (bad : JsonV) (e : error)
    (hbad : resource_from_json bad = .ok (.error e)) (post : List JsonV) :
    ∀ (pre : List JsonV) (acc conv : List resource),
      convert_all pre = some conv →
      instances_loop acc (pre ++ bad :: post) = .ok (acc ++ conv) := by
  intro pre
  induction pre with
  | nil =>
    intro acc conv hconv
    simp only [convert_all, Option.some_inj] at hconv
    subst hconv
    simp [instances_loop, hbad]
  | cons j pre2 ih =>
    intro acc conv hconv
    simp only [convert_all] at hconv
    rcases hj : resource_from_json j with ex | rj
    · rw [hj] at hconv; simp at hconv
    · rcases rj with ej | r
      · rw [hj] at hconv; simp at hconv
      · rw [hj] at hconv
        rcases hconv2 : convert_all pre2 with _ | conv2
        · rw [hconv2] at hconv; simp at hconv
        · rw [hconv2] at hconv
          simp at hconv
          subst hconv
          have hloop := ih (acc ++ [r]) conv2 hconv2
          simp only [List.cons_append, instances_loop, hj, List.append_eq]
          rw [hloop, List.append_assoc]
          simp

/-- A sample provider spec recognizing only the attribute "a", whose
reader echoes the wire text as a string value. -/
def sample_spec : prov_spec :=
  ⟨fun n => if n = "a" then some ⟨fun t => .ok (value.str t)⟩ else none⟩

/-- C7: for every resource, reading or writing the identity key "name"
through the generic accessor `operator[]` throws the contract-violation
`std::invalid_argument`; it never returns or stores a value. -/
theorem resource_name_access_contract_violation (r : resource) (v : value) :
    resource.read r "name" = .error name_access_msg ∧
    resource.write r "name" v = .error name_access_msg := by
  constructor <;> simp [resource.read, resource.write, is_name]

/-- C8: for every attribute map and key not present in it, the read
accessor yields the absent value (never an error), and the typed lookup
with a default yields the supplied default for every payload type and
extractor. -/
theorem attr_map_missing_key_total (m : attr_map) (k : String)
    (h : attr_map.find? m k = none) :
    attr_map.get m k = value.absent ∧
    ∀ (T : Type) (asT : value → Option T) (deflt : T),
      attr_map.lookup m asT k deflt = deflt := by
  constructor
  · simp [attr_map.get, h]
  · intro T asT deflt
    simp [attr_map.lookup, h]

/-- C8 witness: the key "b" is absent from the map `[("a", "1")]`. -/
theorem attr_map_missing_key_total_witness :
    attr_map.get [("a", value.str "1")] "b" = value.absent ∧
    attr_map.lookup [("a", value.str "1")] value.as_string "b" "z" = "z" := by
  have h : attr_map.find? [("a", value.str "1")] "b" = none := by decide
  exact ⟨(attr_map_missing_key_total _ _ h).1,
    (attr_map_missing_key_total _ _ h).2 String value.as_string "z"⟩

/-- C1 counterexample: with current attribute `a = "x"`, desired map
`a = "y"` and property list `["a"]`, the single change appended by
`resource::check` has its `is` field equal to the desired value "y" and
its `was` field equal to the current value "x" — not, as claimed, `is`
= current and `was` = desired. -/
theorem check_is_was_direction_cex :
    resource.check ⟨"r", [("a", value.str "x")]⟩ []
        [("a", value.str "y")] ["a"]
      = .ok [⟨"a", value.str "y", value.str "x"⟩]
    ∧ value.str "y" ≠ value.str "x" := by
  decide

/-- C1 (amended): with current attribute `a = x`, a desired map whose
`a` is a present value `y ≠ x`, and property list `["a"]`, `check`
appends exactly one change for `a` whose `is` field is the desired
value `y` and whose `was` field is the current value `x`; with the
desired `a` absent, `check` appends nothing. -/
theorem check_appends_one_change (r : resource) (chgs0 : changes)
    (should : attr_map) (x y : value)
    (hcur : attr_map.get r.attrs "a" = x)
    (hdes : attr_map.get should "a" = y)
    (hpres : y.is_present = true)
    (hne : x ≠ y) :
    resource.check r chgs0 should ["a"] = .ok (chgs0 ++ [⟨"a", y, x⟩]) ∧
    ∀ should2 : attr_map, attr_map.get should2 "a" = value.absent →
      resource.check r chgs0 should2 ["a"] = .ok chgs0 := by
  constructor
  · simp only [resource.check, resource.read, is_name, hdes, hpres, hcur]
    simp [changes.add, hne]
  · intro should2 h2
    simp [resource.check, h2, value.is_present]

/-- C1 witness: the amended statement at the concrete scenario of the
spec (current "x", desired "y"). -/
theorem check_appends_one_change_witness :
    resource.check ⟨"r", [("a", value.str "x")]⟩ []
        [("a", value.str "y")] ["a"]
      = .ok ([] ++ [⟨"a", value.str "y", value.str "x"⟩]) ∧
    resource.check ⟨"r", [("a", value.str "x")]⟩ [] [] ["a"] = .ok [] := by
  have h := check_appends_one_change ⟨"r", [("a", value.str "x")]⟩ []
    [("a", value.str "y")] (value.str "x") (value.str "y")
    (by decide) (by decide) (by decide) (by decide)
  exact ⟨h.1, h.2 [] (by decide)⟩

/-- C9: `provider::parse` errors when the spec has not been initialized,
errors when the attribute is not recognized by the spec, and otherwise
delegates to the spec entry's type-directed `read_string`. -/
theorem provider_parse_spec_errors :
    (∀ (name v : String),
      provider.parse ⟨none⟩ name v
        = .error ⟨"internal error: spec was not initialized"⟩) ∧
    (∀ (s : prov_spec) (name v : String), s.attr name = none →
      provider.parse ⟨some s⟩ name v
        = .error ⟨"there is no attribute '" ++ name ++ "'"⟩) ∧
    (∀ (s : prov_spec) (name v : String) (a : attr_spec),
      s.attr name = some a →
      provider.parse ⟨some s⟩ name v = a.read_string v) := by
  refine ⟨fun name v => rfl, fun s name v h => ?_, fun s name v a h => ?_⟩
  · simp [provider.parse, h]
  · simp [provider.parse, h]

/-- C9 witness: against `sample_spec`, an uninitialized spec errors, the
unknown attribute "b" errors, and the known attribute "a" delegates. -/
theorem provider_parse_spec_errors_witness :
    provider.parse ⟨none⟩ "a" "v"
      = .error ⟨"internal error: spec was not initialized"⟩ ∧
    provider.parse ⟨some sample_spec⟩ "b" "v"
      = .error ⟨"there is no attribute '" ++ "b" ++ "'"⟩ ∧
    provider.parse ⟨some sample_spec⟩ "a" "v" = .ok (value.str "v") := by
  refine ⟨provider_parse_spec_errors.1 "a" "v",
    provider_parse_spec_errors.2.1 sample_spec "b" "v" (by simp [sample_spec]),
    ?_⟩
  have h := provider_parse_spec_errors.2.2 sample_spec "a" "v"
    ⟨fun t => .ok (value.str t)⟩ (by simp [sample_spec])
  simpa using h

/-- C2: classification of external invocations by
`json_provider::run_action` — a non-zero exit with empty stdout and
stderr yields an Error whose detail carries the action name and exit
status; a non-zero exit with stderr carries the stderr text; a non-zero
exit with stdout carries the stdout text (and the stderr text when
present); and a zero exit with non-empty stderr is an Error, never an
Ok document. -/
theorem run_action_error_classification :
    (∀ (a : String) (ec : Int) (pj : String → JsonV),
      ∃ e, run_action a ⟨false, ec, "", ""⟩ pj = .error e ∧
        str_contains e.detail a ∧ str_contains e.detail (toString ec)) ∧
    (∀ (a : String) (ec : Int) (err : String) (pj : String → JsonV),
      err ≠ "" →
      ∃ e, run_action a ⟨false, ec, "", err⟩ pj = .error e ∧
        str_contains e.detail err) ∧
    (∀ (a : String) (ec : Int) (o err : String) (pj : String → JsonV),
      o ≠ "" →
      ∃ e, run_action a ⟨false, ec, o, err⟩ pj = .error e ∧
        str_contains e.detail o ∧
        (err ≠ "" → str_contains e.detail err)) ∧
    (∀ (a : String) (ec : Int) (o err : String) (pj : String → JsonV),
      err ≠ "" →
      ∃ e, run_action a ⟨true, ec, o, err⟩ pj = .error e) := by
  refine ⟨fun a ec pj => ?_, fun a ec err pj herr => ?_,
    fun a ec o err pj ho => ?_, fun a ec o err pj herr => ?_⟩
  · refine ⟨⟨"action '" ++ a ++ "' exited with status " ++ toString ec⟩,
      by simp [run_action], ?_, ?_⟩
    · exact ⟨"action '", "' exited with status " ++ toString ec,
        by simp [String.append_assoc]⟩
    · exact ⟨"action '" ++ a ++ "' exited with status ", "",
        by simp [String.append_assoc]⟩
  · refine ⟨⟨"action '" ++ a ++ "' exited with status " ++ toString ec ++
      ". stderr was '" ++ err ++ "'"⟩, by simp [run_action, herr], ?_⟩
    exact ⟨"action '" ++ a ++ "' exited with status " ++ toString ec ++
      ". stderr was '", "'", by simp [String.append_assoc]⟩
  · by_cases herr : err = ""
    · subst herr
      refine ⟨⟨"action '" ++ a ++ "' exited with status " ++ toString ec ++
        ". Output was '" ++ o ++ "'"⟩, by simp [run_action, ho], ?_, by simp⟩
      exact ⟨"action '" ++ a ++ "' exited with status " ++ toString ec ++
        ". Output was '", "'", by simp [String.append_assoc]⟩
    · refine ⟨⟨"action '" ++ a ++ "' exited with status " ++ toString ec ++
        ". Output was '" ++ o ++ "'. stderr was '" ++ err ++ "'"⟩,
        by simp [run_action, ho, herr], ?_, fun _ => ?_⟩
      · exact ⟨"action '" ++ a ++ "' exited with status " ++ toString ec ++
          ". Output was '", "'. stderr was '" ++ err ++ "'",
          by simp [String.append_assoc]⟩
      · exact ⟨"action '" ++ a ++ "' exited with status " ++ toString ec ++
          ". Output was '" ++ o ++ "'. stderr was '", "'",
          by simp [String.append_assoc]⟩
  · exact ⟨⟨"action '" ++ a ++ "' produced stderr '" ++ err ++ "'"⟩,
      by simp [run_action, herr]⟩

/-- C2 witness: each classification case at a concrete invocation. -/
theorem run_action_error_classification_witness :
    (∃ e, run_action "update" ⟨false, 2, "", ""⟩ (fun _ => JsonV.obj [])
        = .error e ∧
      str_contains e.detail "update" ∧
      str_contains e.detail (toString (2 : Int))) ∧
    (∃ e, run_action "update" ⟨false, 2, "", "boom"⟩ (fun _ => JsonV.obj [])
        = .error e ∧ str_contains e.detail "boom") ∧
    (∃ e, run_action "update" ⟨false, 2, "out", "boom"⟩ (fun _ => JsonV.obj [])
        = .error e ∧ str_contains e.detail "out" ∧
        ("boom" ≠ "" → str_contains e.detail "boom")) ∧
    (∃ e, run_action "update" ⟨true, 0, "out", "boom"⟩ (fun _ => JsonV.obj [])
        = .error e) :=
  ⟨run_action_error_classification.1 "update" 2 _,
   run_action_error_classification.2.1 "update" 2 "boom" _ (by decide),
   run_action_error_classification.2.2.1 "update" 2 "out" "boom" _ (by decide),
   run_action_error_classification.2.2.2 "update" 0 "out" "boom" _ (by decide)⟩

/-- C3 counterexample: a `list` reply whose second entry fails
conversion (it has no `name`). `instances` returns the resource
converted before the failing entry — a non-empty partial result —
refuting the claim that no converted resource is returned. -/
theorem instances_partial_results_cex :
    json_provider.instances (.ok (JsonV.obj [("resources",
        JsonV.arr [JsonV.obj [("name", JsonV.str "a")], JsonV.obj []])]))
      = .ok [⟨"a", []⟩] ∧
    ([⟨"a", []⟩] : List resource) ≠ [] := by
  decide

/-- C3 (amended): a conversion failure aborts the enumeration at the
failing entry — entries after it are not converted and do not influence
the result — but the resources converted before it are returned. -/
theorem instances_stops_at_first_failure (doc : JsonV) (pre : List JsonV)
    (bad : JsonV) (post : List JsonV) (conv : List resource) (e : error)
    (hce : contains_error doc = false)
    (hres : doc.lookup "resources" = some (JsonV.arr (pre ++ bad :: post)))
    (hpre : convert_all pre = some conv)
    (hbad : resource_from_json bad = .ok (.error e)) :
    json_provider.instances (.ok doc) = .ok conv := by
  have hinc : doc.includes "resources" = true := by
    simp [JsonV.includes, hres]
  simp only [json_provider.instances, hce, hinc, hres, Bool.false_eq_true,
    if_false, Bool.not_true, if_true]
  simpa using instances_loop_stops bad e hbad post pre [] conv hpre

/-- C3 witness: the amended statement at the counterexample's reply. -/
theorem instances_stops_at_first_failure_witness :
    json_provider.instances (.ok (JsonV.obj [("resources",
        JsonV.arr [JsonV.obj [("name", JsonV.str "b"), ("x", JsonV.str "1")],
          JsonV.obj [("y", JsonV.str "2")],
          JsonV.obj [("name", JsonV.str "c")]])]))
      = .ok [⟨"b", [("x", value.str "1")]⟩] :=
  instances_stops_at_first_failure _
    [JsonV.obj [("name", JsonV.str "b"), ("x", JsonV.str "1")]]
    (JsonV.obj [("y", JsonV.str "2")])
    [JsonV.obj [("name", JsonV.str "c")]]
    [⟨"b", [("x", value.str "1")]⟩]
    ⟨"resource does not have a name"⟩
    rfl rfl (by decide) (by decide)

/-- C4: on a successful reply document, a missing `changes` key yields
Ok with the empty change set (not an Error); and an entry under
`changes` lacking `is` or `was` (the entries before it being the
protocol's well-formed string entries) yields an Error naming that
attribute, the resource untouched. -/
theorem update_changes_reply_contract :
    (∀ (r : resource) (should : attr_map) (doc : JsonV),
      contains_error doc = false → doc.includes "changes" = false →
      json_resource.update r should (.ok doc) = .ok (.ok [], r)) ∧
    (∀ (r : resource) (should : attr_map) (doc jc : JsonV)
      (pre : List String) (k : String) (post : List String),
      contains_error doc = false →
      doc.lookup "changes" = some jc →
      jc.keys = pre ++ k :: post →
      (∀ k2 ∈ pre, entry_wf jc k2 = true) →
      (jc.includes2 k "is" = false ∨ jc.includes2 k "was" = false) →
      ∃ e, json_resource.update r should (.ok doc) = .ok (.error e, r) ∧
        str_contains e.detail k) := by
  constructor
  · intro r should doc hce hinc
    simp [json_resource.update, hce, hinc]
  · intro r should doc jc pre k post hce hjc hkeys hwf hmal
    have hinc : doc.includes "changes" = true := by
      simp [JsonV.includes, hjc]
    obtain ⟨e, he, hc⟩ := read_changes_malformed jc k post hmal pre hwf
    refine ⟨e, ?_, hc⟩
    simp [json_resource.update, hce, hinc, JsonV.getContainer, hjc,
      hkeys, he]

/-- C4 witness: a reply with no `changes` key, and a reply whose only
`changes` entry for "x" lacks `is`. -/
theorem update_changes_reply_contract_witness :
    json_resource.update ⟨"foo", [("a", value.str "0")]⟩ []
        (.ok (JsonV.obj [("ok", JsonV.bool true)]))
      = .ok (.ok [], ⟨"foo", [("a", value.str "0")]⟩) ∧
    ∃ e, json_resource.update ⟨"foo", []⟩ []
        (.ok (JsonV.obj [("changes",
          JsonV.obj [("x", JsonV.obj [("was", JsonV.str "0")])])]))
      = .ok (.error e, ⟨"foo", []⟩) ∧ str_contains e.detail "x" :=
  ⟨update_changes_reply_contract.1 ⟨"foo", [("a", value.str "0")]⟩ []
      (JsonV.obj [("ok", JsonV.bool true)]) (by decide) (by decide),
   update_changes_reply_contract.2 ⟨"foo", []⟩ []
      (JsonV.obj [("changes",
        JsonV.obj [("x", JsonV.obj [("was", JsonV.str "0")])])])
      (JsonV.obj [("x", JsonV.obj [("was", JsonV.str "0")])])
      [] "x" [] (by decide) rfl rfl (by simp) (Or.inl (by decide))⟩

/-- C5 counterexample: a successful reply with no `changes` key makes
`update` return Ok, yet the desired attribute `x = "1"` of `should` is
not written into the resource's attribute map (it stays absent). -/
theorem update_ok_without_changes_cex :
    json_resource.update ⟨"foo", []⟩ [("x", value.str "1")]
        (.ok (JsonV.obj []))
      = .ok (.ok [], ⟨"foo", []⟩) ∧
    attr_map.get [] "x" ≠ value.str "1" := by
  decide

/-- C5 (amended): when `update` returns Ok after processing a `changes`
object present in the reply, the resource's attribute map afterwards
holds, for every attribute of `should` except the identity attribute
"name", the desired value, and the identity attribute is never written;
but when the reply has no `changes` key, `update` returns Ok with the
attribute map left unchanged. -/
theorem update_ok_post_state :
    (∀ (r : resource) (should : attr_map) (doc jc : JsonV) (cs : changes),
      contains_error doc = false →
      doc.lookup "changes" = some jc →
      read_changes jc jc.keys = .ok (.ok cs) →
      (should.map Prod.fst).Nodup →
      ∃ r2, json_resource.update r should (.ok doc) = .ok (.ok cs, r2) ∧
        (∀ k v, (k, v) ∈ should → k ≠ "name" →
          attr_map.find? r2.attrs k = some v) ∧
        attr_map.find? r2.attrs "name" = attr_map.find? r.attrs "name") ∧
    (∀ (r : resource) (should : attr_map) (doc : JsonV),
      contains_error doc = false → doc.includes "changes" = false →
      json_resource.update r should (.ok doc) = .ok (.ok [], r)) := by
  constructor
  · intro r should doc jc cs hce hjc hrc hnd
    have hinc : doc.includes "changes" = true := by
      simp [JsonV.includes, hjc]
    refine ⟨{ r with attrs := write_back should r.attrs }, ?_, ?_, ?_⟩
    · simp [json_resource.update, hce, hinc, JsonV.getContainer, hjc, hrc]
    · intro k v hmem hk
      exact write_back_find?_mem should r.attrs k v hnd hmem hk
    · exact write_back_find?_name should r.attrs
  · intro r should doc hce hinc
    simp [json_resource.update, hce, hinc]

/-- C5 witness: the amended statement at the spec's concrete `update`
scenario (`changes.ensure: is "present", was "absent"`). -/
theorem update_ok_post_state_witness :
    ∃ r2, json_resource.update ⟨"foo", []⟩ [("ensure", value.str "present")]
        (.ok (JsonV.obj [("changes", JsonV.obj [("ensure",
          JsonV.obj [("is", JsonV.str "present"), ("was", JsonV.str "absent")])])]))
      = .ok (.ok [⟨"ensure", value.str "present", value.str "absent"⟩], r2) ∧
      (∀ k v, (k, v) ∈ ([("ensure", value.str "present")] : attr_map) →
        k ≠ "name" → attr_map.find? r2.attrs k = some v) ∧
      attr_map.find? r2.attrs "name"
        = attr_map.find? (⟨"foo", []⟩ : resource).attrs "name" :=
  update_ok_post_state.1 ⟨"foo", []⟩ [("ensure", value.str "present")]
    (JsonV.obj [("changes", JsonV.obj [("ensure",
      JsonV.obj [("is", JsonV.str "present"), ("was", JsonV.str "absent")])])])
    (JsonV.obj [("ensure",
      JsonV.obj [("is", JsonV.str "present"), ("was", JsonV.str "absent")])])
    [⟨"ensure", value.str "present", value.str "absent"⟩]
    (by decide) rfl (by decide) (by decide)

/-- C6: `json_provider::find` never propagates a backend failure — a
failed invocation, an error envelope (any kind, including the expected
"unknown"), a failed resource conversion, and a name mismatch all yield
`boost::none` (not-found), never an error result and never a resource. -/
theorem find_swallows_backend_failures :
    (∀ (name : String) (e : error),
      json_provider.find name (.error e) = .ok none) ∧
    (∀ (name : String) (doc : JsonV), contains_error doc = true →
      json_provider.find name (.ok doc) = .ok none) ∧
    (∀ (name : String) (doc jr : JsonV) (ce : error),
      contains_error doc = false →
      doc.lookup "resource" = some jr →
      resource_from_json jr = .ok (.error ce) →
      json_provider.find name (.ok doc) = .ok none) ∧
    (∀ (name : String) (doc jr : JsonV) (rsrc : resource),
      contains_error doc = false →
      doc.lookup "resource" = some jr →
      resource_from_json jr = .ok (.ok rsrc) →
      rsrc.name ≠ name →
      json_provider.find name (.ok doc) = .ok none) := by
  refine ⟨fun name e => rfl, fun name doc h => ?_,
    fun name doc jr ce h1 h2 h3 => ?_, fun name doc jr rsrc h1 h2 h3 h4 => ?_⟩
  · simp [json_provider.find, h]
  · simp [json_provider.find, JsonV.getContainer, h1, h2, h3]
  · simp [json_provider.find, JsonV.getContainer, h1, h2, h3, h4]

/-- C6 witness: the four swallowed outcomes at concrete replies — an
invocation error, the `unknown` error envelope of the spec's `find`
scenario, a `resource` payload without a name, and a reply naming a
different resource. -/
theorem find_swallows_backend_failures_witness :
    json_provider.find "a" (.error ⟨"boom"⟩) = .ok none ∧
    json_provider.find "a" (.ok (JsonV.obj [("error",
        JsonV.obj [("kind", JsonV.str "unknown")])])) = .ok none ∧
    json_provider.find "a" (.ok (JsonV.obj [("resource", JsonV.obj [])]))
      = .ok none ∧
    json_provider.find "a" (.ok (JsonV.obj [("resource",
        JsonV.obj [("name", JsonV.str "b")])])) = .ok none :=
  ⟨find_swallows_backend_failures.1 "a" ⟨"boom"⟩,
   find_swallows_backend_failures.2.1 "a"
     (JsonV.obj [("error", JsonV.obj [("kind", JsonV.str "unknown")])])
     (by decide),
   find_swallows_backend_failures.2.2.1 "a"
     (JsonV.obj [("resource", JsonV.obj [])]) (JsonV.obj [])
     ⟨"resource does not have a name"⟩ (by decide) rfl (by decide),
   find_swallows_backend_failures.2.2.2 "a"
     (JsonV.obj [("resource", JsonV.obj [("name", JsonV.str "b")])])
     (JsonV.obj [("name", JsonV.str "b")]) ⟨"b", []⟩
     (by decide) rfl (by decide) (by decide)⟩

/-- C10: `json_resource::update` is atomic on failure — whenever it
returns a `result` Error (failed invocation, error envelope, or
malformed change entry), the resource's state is exactly what it was
before the call; desired attributes are written only after every change
entry has been accepted. -/
theorem update_error_leaves_resource_unchanged (r : resource)
    (should : attr_map) (out : result JsonV) (e : error) (r2 : resource)
    (h : json_resource.update r should out = .ok (.error e, r2)) :
    r2 = r := by
  unfold json_resource.update at h
  cases out with
  | error e0 =>
    simp at h
    exact h.2.symm
  | ok doc =>
    cases hce : contains_error doc with
    | true =>
      simp [hce] at h
      exact h.2.symm
    | false =>
      cases hinc : doc.includes "changes" with
      | false => simp [hce, hinc] at h
      | true =>
        simp only [hce, hinc, Bool.false_eq_true, if_false, Bool.not_true] at h
        cases hc : doc.getContainer "changes" with
        | error ex => simp [hc] at h
        | ok jchgs =>
          cases hr : read_changes jchgs jchgs.keys with
          | error ex => simp [hc, hr] at h
          | ok rc =>
            cases rc with
            | error e2 =>
              simp [hc, hr] at h
              exact h.2.symm
            | ok cs => simp [hc, hr] at h

/-- C10 witness: a failed invocation leaves the resource unchanged. -/
theorem update_error_unchanged_witness :
    json_resource.update ⟨"foo", [("a", value.str "0")]⟩
        [("x", value.str "1")] (.error ⟨"boom"⟩)
      = .ok (.error ⟨"boom"⟩, ⟨"foo", [("a", value.str "0")]⟩) ∧
    (⟨"foo", [("a", value.str "0")]⟩ : resource)
      = ⟨"foo", [("a", value.str "0")]⟩ :=
  ⟨by decide,
   update_error_leaves_resource_unchanged ⟨"foo", [("a", value.str "0")]⟩
     [("x", value.str "1")] (.error ⟨"boom"⟩) ⟨"boom"⟩
     ⟨"foo", [("a", value.str "0")]⟩ (by decide)⟩

end libral
